import Mathlib

/-!
Verification development for the columnar array runtime and scalar-function
execution layer of an analytical SQL engine.

The definitions are shallow embeddings of the Rust source:
  * `crates/rayexec_execution/src/arrays/array/mod.rs` (the `Array` type,
    `select`, `select_mut2`, `logical_value`, `physical_scalar`,
    `put_validity`, `Clone`/`PartialEq`, the `FromIterator` impls),
  * `crates/rayexec_execution/src/functions/scalar/arith.rs` and
    `arith/div.rs` (arithmetic kernels),
  * `crates/rayexec_execution/src/functions/scalar/builtin/string/length.rs`
    (length kernels),
  * `crates/rayexec_execution/src/functions/scalar/builtin/similarity/l2_distance.rs`
    (the L2-distance reducer).

Machine integers are embedded as `Int` with explicit wrapping where the Rust
semantics wrap; Rust panics (index out of bounds, division by zero, arithmetic
overflow in `/` and `%`) are embedded as an explicit `panicked` error value so
that control flow stays total and inspectable.  Supporting modules whose
sources are not available (`SelectionVector`, `Validity`/`Bitmap` internals,
`ArrayBuffer`, the `UnaryExecutor`/`BinaryExecutor`/`ListExecutor` drivers)
are modelled from the specification; each such definition is marked
`Modelled from the spec:` in its doc comment.
-/

deriving instance DecidableEq for Except

namespace Glaredb

/-- Embedding of `RayexecError`: a message plus optional numeric fields
(`with_field` calls). -/
structure RayexecError where
  message : String
  fields : List (String × Nat) := []
  deriving Repr, DecidableEq

/-- Result-or-abort outcome of running embedded code.  `err` is a returned
`RayexecError`; `panicked` marks a Rust panic (index out of bounds, division
by zero, arithmetic overflow of `/` or `%`, explicit `panic!`). -/
inductive ExecError where
  | err (e : RayexecError)
  | panicked (msg : String)
  deriving Repr, DecidableEq

/-- Physical storage types (closed set), from `physical_type.rs` /
spec section 3. -/
inductive PhysicalType where
  | untypedNull | boolean
  | int8 | int16 | int32 | int64 | int128
  | uint8 | uint16 | uint32 | uint64 | uint128
  | float16 | float32 | float64
  | interval | binary | utf8 | list | dictionary
  deriving Repr, DecidableEq

/-- Logical data types (the variants exercised by the claims; the remaining
variants of the Rust enum are not needed by any claim). -/
inductive DataType where
  | null | boolean
  | int8 | int16 | int32 | int64 | int128
  | uint8 | uint16 | uint32 | uint64 | uint128
  | utf8 | binary
  deriving Repr, DecidableEq

/-- Display name of a datatype, used in error messages
(`format!("... {datatype}")`). -/
def DataType.display : DataType → String
  | .null => "Null"
  | .boolean => "Boolean"
  | .int8 => "Int8"
  | .int16 => "Int16"
  | .int32 => "Int32"
  | .int64 => "Int64"
  | .int128 => "Int128"
  | .uint8 => "UInt8"
  | .uint16 => "UInt16"
  | .uint32 => "UInt32"
  | .uint64 => "UInt64"
  | .uint128 => "UInt128"
  | .utf8 => "Utf8"
  | .binary => "Binary"

/-- Modelled from the spec: `DataType::physical_type` (in `datatype.rs`,
not under the provided sources).  "Each logical type maps to exactly one
physical type"; the table is the evident one for the embedded variants. -/
def DataType.physicalType : DataType → PhysicalType
  | .null => .untypedNull
  | .boolean => .boolean
  | .int8 => .int8
  | .int16 => .int16
  | .int32 => .int32
  | .int64 => .int64
  | .int128 => .int128
  | .uint8 => .uint8
  | .uint16 => .uint16
  | .uint32 => .uint32
  | .uint64 => .uint64
  | .uint128 => .uint128
  | .utf8 => .utf8
  | .binary => .binary

/-- Owned single-row value, mirroring `ScalarValue` for the embedded
datatypes.  Integer payloads are `Int` (the stored machine value). -/
inductive ScalarValue where
  | Null
  | Boolean (b : Bool)
  | Int8 (v : Int) | Int16 (v : Int) | Int32 (v : Int)
  | Int64 (v : Int) | Int128 (v : Int)
  | UInt8 (v : Int) | UInt16 (v : Int) | UInt32 (v : Int)
  | UInt64 (v : Int) | UInt128 (v : Int)
  | Utf8 (s : String)
  | Binary (s : String)
  deriving Repr, DecidableEq

/-- Legacy physical data (`ArrayData2`), restricted to the storage variants
the claims exercise.  German/contiguous varlen storage is modelled as the
list of pushed values: every string stored by the embedded constructors is
pushed as the UTF-8 bytes of a Rust `str`, so decoding on read is the
identity and byte-level layout is irrelevant to the claims. -/
inductive ArrayData2 where
  | untypedNull (len : Nat)
  | boolean (bits : List Bool)
  | int8 (vals : List Int) | int16 (vals : List Int) | int32 (vals : List Int)
  | int64 (vals : List Int) | int128 (vals : List Int)
  | uint8 (vals : List Int) | uint16 (vals : List Int) | uint32 (vals : List Int)
  | uint64 (vals : List Int) | uint128 (vals : List Int)
  | binary (vals : List String)
  deriving Repr, DecidableEq

/-- `ArrayData2::len`. -/
def ArrayData2.len : ArrayData2 → Nat
  | .untypedNull n => n
  | .boolean bs => bs.length
  | .int8 vs => vs.length
  | .int16 vs => vs.length
  | .int32 vs => vs.length
  | .int64 vs => vs.length
  | .int128 vs => vs.length
  | .uint8 vs => vs.length
  | .uint16 vs => vs.length
  | .uint32 vs => vs.length
  | .uint64 vs => vs.length
  | .uint128 vs => vs.length
  | .binary vs => vs.length

/-- Modelled from the spec: new-layout array data (`ArrayBuffer` /
`ArrayData` in `array_buffer.rs`/`array_data.rs`, not under the provided
sources).  `flat` is a non-dictionary primary buffer of a physical type and
capacity; `dict` is a dictionary primary buffer of `u32` indices whose
secondary buffer (`SecondaryBuffer::Dictionary`) holds the source validity
and source buffer. -/
inductive ArrayDataM where
  | flat (phys : PhysicalType) (len : Nat)
  | dict (indices : List Nat) (srcValidity : List Bool) (src : ArrayDataM)
  deriving Repr, DecidableEq

/-- `ArrayBuffer::primary_capacity`. -/
def ArrayDataM.primaryCapacity : ArrayDataM → Nat
  | .flat _ n => n
  | .dict idxs _ _ => idxs.length

/-- `ArrayBuffer::physical_type`. -/
def ArrayDataM.physType : ArrayDataM → PhysicalType
  | .flat p _ => p
  | .dict _ _ _ => .dictionary

/-- The indices stored in a dictionary primary buffer (empty for a
non-dictionary buffer). -/
def ArrayDataM.dictIndices : ArrayDataM → List Nat
  | .flat _ _ => []
  | .dict idxs _ _ => idxs

/-- Logical length of the data a dictionary buffer (or a plain buffer)
points into: for a plain buffer its own capacity, for a dictionary the
capacity of its source buffer. -/
def ArrayDataM.sourceLen : ArrayDataM → Nat
  | .flat _ n => n
  | .dict _ _ src => src.primaryCapacity

/-- Dictionary well-formedness (spec, testable property 2): every stored
index is in bounds of the source. -/
def ArrayDataM.wf : ArrayDataM → Prop
  | .flat _ _ => True
  | .dict idxs _ src => (∀ i ∈ idxs, i < src.primaryCapacity) ∧ src.wf

def ArrayDataM.wfDecidable : ∀ d : ArrayDataM, Decidable d.wf
  | .flat _ _ => .isTrue trivial
  | .dict idxs v src =>
      have : Decidable src.wf := ArrayDataM.wfDecidable src
      by unfold ArrayDataM.wf; infer_instance

instance : ∀ d : ArrayDataM, Decidable d.wf := ArrayDataM.wfDecidable

/-- New-layout contents (`ArrayNextInner`): unconditional validity plus the
array data.  Validity is modelled as its list of bits
(index `i` valid iff entry `i` is `true`). -/
structure ArrayNextInner where
  validity : List Bool
  data : ArrayDataM
  deriving Repr, DecidableEq

/-- The `Array` struct, mirroring the Rust field-for-field: legacy fields
`selection2` (selection vector as its index list), `validity2` (bitmap as its
bit list), `data2`, plus the optional new-layout `next`. -/
structure Array where
  datatype : DataType
  selection2 : Option (List Nat)
  validity2 : Option (List Bool)
  data2 : ArrayData2
  next : Option ArrayNextInner
  deriving Repr, DecidableEq

namespace Array

/-- `impl Clone for Array`: clones the legacy fields and drops `next`. -/
def clone (a : Array) : Array :=
  { datatype := a.datatype
    selection2 := a.selection2
    validity2 := a.validity2
    data2 := a.data2
    next := none }

/-- `impl PartialEq for Array`: compares only the legacy fields,
ignoring `next`. -/
def partialEq (a b : Array) : Bool :=
  a.datatype == b.datatype
    && a.selection2 == b.selection2
    && a.validity2 == b.validity2
    && a.data2 == b.data2

/-- `Array::try_new(manager, datatype, capacity)`: allocates a primary buffer
for the datatype's physical type, validity all-valid, and leaves the legacy
fields at the placeholder values the source writes
(`selection2 = None`, `validity2 = None`,
`data2 = UntypedNull(UntypedNullStorage(capacity))`). -/
def tryNew (datatype : DataType) (capacity : Nat) : Array :=
  { datatype := datatype
    selection2 := none
    validity2 := none
    data2 := .untypedNull capacity
    next := some { validity := List.replicate capacity true
                   data := .flat datatype.physicalType capacity } }

/-- `Array::put_validity(validity)`: succeeds iff the length matches the
primary capacity of the new-layout data; on success installs the validity,
on failure returns the typed error, leaving the array unchanged.  Calling it
on an array without new-layout contents panics (`next_mut`'s `expect`). -/
def putValidity (a : Array) (validity : List Bool) : Except ExecError Array :=
  match a.next with
  | none => .error (.panicked "next to be set")
  | some next =>
      if validity.length ≠ next.data.primaryCapacity then
        .error (.err { message := "Invalid validity length"
                       fields := [("got", validity.length),
                                  ("want", next.data.primaryCapacity)] })
      else
        .ok { a with next := some { next with validity := validity } }

/-- `Array::is_dictionary` (panics when `next` is unset; the embedded
callers only use it when `next` is present). -/
def isDictionary (a : Array) : Bool :=
  match a.next with
  | some next => next.data.physType == PhysicalType.dictionary
  | none => false

/-- `Array::select(manager, selection)` on the new-layout contents.

If the array is already a dictionary, a new index buffer of the selection's
length is filled with `old_sel[sel_idx]` for each selection entry (the Rust
indexing panics when an entry is out of bounds of the old index buffer), the
dictionary secondary buffer is moved onto the new buffer, and the validity is
left as it was.  Otherwise the selection indices themselves become the new
dictionary index buffer — the source explicitly does not verify they are in
bounds — the old validity and old buffer move into the dictionary secondary
buffer, and the array's validity is reset to all-valid of the selection
length. -/
def select (a : Array) (selection : List Nat) : Except ExecError Array :=
  match a.next with
  | none => .error (.panicked "next to be set")
  | some next =>
      match next.data with
      | .dict oldSel srcValidity src =>
          if _h : ∀ i ∈ selection, i < oldSel.length then
            let composed : ArrayDataM :=
              .dict (selection.map fun i => oldSel.getD i 0) srcValidity src
            .ok { a with next := some ⟨next.validity, composed⟩ }
          else
            .error (.panicked "index out of bounds")
      | flatData =>
          let dictData : ArrayDataM := .dict selection next.validity flatData
          .ok { a with next := some ⟨List.replicate selection.length true, dictData⟩ }

/-- `Array::has_selection`. -/
def hasSelection (a : Array) : Bool := a.selection2.isSome

/-- `Array::logical_len`: selection length when a selection is present,
else the data length. -/
def logicalLen (a : Array) : Nat :=
  match a.selection2 with
  | some v => v.length
  | none => a.data2.len

end Array

/-- Modelled from the spec: `SelectionVector::select` (in `selection.rs`, not
under the provided sources).  Composition per spec section 3:
applying `s₂` over `s₁` yields `s₃` with `s₃[i] = s₁[s₂[i]]`
(every `s₂[i]` is assumed in bounds of `s₁`; the `getD` default is never
reached under that assumption). -/
def SelectionVector.select (s₁ s₂ : List Nat) : List Nat :=
  s₂.map fun i => s₁.getD i 0

namespace Array

/-- `Array::select_mut2(selection)`: composes with any existing selection,
otherwise installs the given selection directly. -/
def selectMut2 (a : Array) (selection : List Nat) : Array :=
  match a.selection2 with
  | some existing => { a with selection2 := some (SelectionVector.select existing selection) }
  | none => { a with selection2 := some selection }

/-- `Array::physical_scalar(idx)`: reads the raw slot, ignoring validity and
selection.  Each embedded arm is the source's arm for that datatype; note the
source's `DataType::Int128` arm matches `ArrayData2::Int64` storage and the
`DataType::UInt128` arm matches `ArrayData2::UInt64` storage.  Rust slice
indexing out of bounds is a panic; varlen `get` out of bounds is the
"missing data" error. -/
def physicalScalar (a : Array) (idx : Nat) : Except ExecError ScalarValue :=
  let notValid : Except ExecError ScalarValue :=
    .error (.err { message := "Array data not valid for data type: " ++ a.datatype.display })
  let slot : {α : Type} → List α → (α → ScalarValue) → Except ExecError ScalarValue :=
    fun vals k =>
      match vals.get? idx with
      | some v => .ok (k v)
      | none => .error (.panicked "index out of bounds")
  match a.datatype with
  | .null =>
      match a.data2 with
      | .untypedNull _ => .ok .Null
      | _ => notValid
  | .boolean =>
      match a.data2 with
      | .boolean bits => slot bits ScalarValue.Boolean
      | _ => notValid
  | .int8 =>
      match a.data2 with
      | .int8 vs => slot vs ScalarValue.Int8
      | _ => notValid
  | .int16 =>
      match a.data2 with
      | .int16 vs => slot vs ScalarValue.Int16
      | _ => notValid
  | .int32 =>
      match a.data2 with
      | .int32 vs => slot vs ScalarValue.Int32
      | _ => notValid
  | .int64 =>
      match a.data2 with
      | .int64 vs => slot vs ScalarValue.Int64
      | _ => notValid
  | .int128 =>
      match a.data2 with
      | .int64 vs => slot vs ScalarValue.Int64
      | _ => notValid
  | .uint8 =>
      match a.data2 with
      | .uint8 vs => slot vs ScalarValue.UInt8
      | _ => notValid
  | .uint16 =>
      match a.data2 with
      | .uint16 vs => slot vs ScalarValue.UInt16
      | _ => notValid
  | .uint32 =>
      match a.data2 with
      | .uint32 vs => slot vs ScalarValue.UInt32
      | _ => notValid
  | .uint64 =>
      match a.data2 with
      | .uint64 vs => slot vs ScalarValue.UInt64
      | _ => notValid
  | .uint128 =>
      match a.data2 with
      | .uint64 vs => slot vs ScalarValue.UInt64
      | _ => notValid
  | .utf8 =>
      match a.data2 with
      | .binary vs =>
          match vs.get? idx with
          | some s => .ok (.Utf8 s)
          | none => .error (.err { message := "missing data" })
      | _ => notValid
  | .binary =>
      match a.data2 with
      | .binary vs =>
          match vs.get? idx with
          | some s => .ok (.Binary s)
          | none => .error (.err { message := "missing data" })
      | _ => notValid

/-- `Array::logical_value(idx)`: resolves the selection (out-of-bounds
logical indices error), consults the legacy validity (invalid cells read as
`ScalarValue::Null`), then reads the physical slot.  `Bitmap::value` is
modelled as `getD true` (an in-bounds read under the datatype invariants the
constructors maintain). -/
def logicalValue (a : Array) (idx : Nat) : Except ExecError ScalarValue :=
  let afterSel (pidx : Nat) : Except ExecError ScalarValue :=
    match a.validity2 with
    | some validity =>
        if validity.getD pidx true = false then .ok .Null
        else a.physicalScalar pidx
    | none => a.physicalScalar pidx
  match a.selection2 with
  | some v =>
      match v.get? idx with
      | some pidx => afterSel pidx
      | none => .error (.err { message := s!"Logical index {idx} out of bounds" })
  | none => afterSel idx

/-- `impl FromIterator<&str> for Array`: pushes each string into German
varlen storage, no validity, no selection. -/
def fromIterStr (vals : List String) : Array :=
  { datatype := .utf8
    selection2 := none
    validity2 := none
    data2 := .binary vals
    next := none }

/-- `impl FromIterator<i32> for Array` (via `impl_primitive_from_iter!`). -/
def fromIterI32 (vals : List Int) : Array :=
  { datatype := .int32
    selection2 := none
    validity2 := none
    data2 := .int32 vals
    next := none }

/-- `impl FromIterator<i128> for Array` (via `impl_primitive_from_iter!`). -/
def fromIterI128 (vals : List Int) : Array :=
  { datatype := .int128
    selection2 := none
    validity2 := none
    data2 := .int128 vals
    next := none }

/-- `impl FromIterator<u128> for Array` (via `impl_primitive_from_iter!`). -/
def fromIterU128 (vals : List Int) : Array :=
  { datatype := .uint128
    selection2 := none
    validity2 := none
    data2 := .uint128 vals
    next := none }

/-- `impl FromIterator<Option<F>> for Array`: an all-true bitmap of the input
length, `None` entries store `F::default()` and clear their validity bit; the
values array is built by the `FromIterator<F>` impl and the bitmap is then
installed as `validity2`. -/
def fromIterOpt (build : List α → Array) (dflt : α) (vals : List (Option α)) : Array :=
  let newVals := vals.map fun v => v.getD dflt
  let validity := vals.map fun v => v.isSome
  { build newVals with validity2 := some validity }

/-- `FromIterator<Option<i32>>`, instantiated (`i32::default() = 0`). -/
def fromIterOptI32 (vals : List (Option Int)) : Array :=
  fromIterOpt fromIterI32 0 vals

/-- `FromIterator<Option<String>>`, instantiated
(`String::default() = ""`). -/
def fromIterOptStr (vals : List (Option String)) : Array :=
  fromIterOpt fromIterStr "" vals

end Array

/-! ## Scalar kernels

The arithmetic and string-length functions operate on the `rayexec_bullet`
`Array` enum (a tagged union of typed arrays with an optional validity
bitmap), embedded here as `ArrayB` with the variants the kernels and their
tests exercise. -/

/-- The `rayexec_bullet` array enum (`Array::Int32(Int32Array)`, ...),
restricted to the variants the embedded kernels use.  Each typed array is
its values plus an optional validity bitmap. -/
inductive ArrayB where
  | int32 (values : List Int) (validity : Option (List Bool))
  | int64 (values : List Int) (validity : Option (List Bool))
  | utf8 (values : List String) (validity : Option (List Bool))
  deriving Repr, DecidableEq

/-- Validity bit of an optional bitmap at a physical index: a missing bitmap
means all-valid; an explicit bitmap is read at the index (in bounds for the
arrays the embedded constructors build). -/
def validBit (validity : Option (List Bool)) (i : Nat) : Bool :=
  match validity with
  | none => true
  | some bits => bits.getD i true

/-- i32 two's-complement wrap, for ops whose release-build semantics wrap. -/
def wrap32 (z : Int) : Int := (z + 2 ^ 31) % 2 ^ 32 - 2 ^ 31

/-- The Rust `a + b` on `i32` (release semantics: wraps). -/
def i32Add (a b : Int) : Except ExecError Int := .ok (wrap32 (a + b))

/-- The Rust `a - b` on `i32` (release semantics: wraps). -/
def i32Sub (a b : Int) : Except ExecError Int := .ok (wrap32 (a - b))

/-- The Rust `a * b` on `i32` (release semantics: wraps). -/
def i32Mul (a b : Int) : Except ExecError Int := .ok (wrap32 (a * b))

/-- The Rust `a / b` on `i32`: panics on a zero divisor and on
`i32::MIN / -1` (in every build profile); otherwise truncated division. -/
def i32Div (a b : Int) : Except ExecError Int :=
  if b = 0 then .error (.panicked "attempt to divide by zero")
  else if a = -(2 ^ 31) ∧ b = -1 then .error (.panicked "attempt to divide with overflow")
  else .ok (Int.tdiv a b)

/-- The Rust `a % b` on `i32`: panics on a zero divisor and on
`i32::MIN % -1` (in every build profile); otherwise truncated remainder. -/
def i32Rem (a b : Int) : Except ExecError Int :=
  if b = 0 then
    .error (.panicked "attempt to calculate the remainder with a divisor of zero")
  else if a = -(2 ^ 31) ∧ b = -1 then
    .error (.panicked "attempt to calculate the remainder with overflow")
  else .ok (Int.tmod a b)

/-- Modelled from the spec: the `BinaryExecutor` / `primitive_binary_execute!`
driver (in `rayexec_bullet`, not under the provided sources).  Spec
section 4.8: walks the rows, output NULL when either side is NULL (the
per-cell function is not called there and the slot keeps its default),
otherwise applies the per-cell function; a panic inside the function aborts
the kernel. -/
def binaryCells (f : Int → Int → Except ExecError Int)
    (aV bV : Option (List Bool)) : Nat → List Int → List Int → Except ExecError (List Int)
  | _, [], _ => .ok []
  | _, _ :: _, [] => .ok []
  | i, x :: xs, y :: ys => do
      let v ← if validBit aV i && validBit bV i then f x y else .ok 0
      let rest ← binaryCells f aV bV (i + 1) xs ys
      .ok (v :: rest)

/-- The full binary driver: the output values from `binaryCells`, and the
output validity — absent when both inputs are all-valid without a bitmap,
otherwise the AND of the two input bits per row. -/
def binaryExecuteInt (f : Int → Int → Except ExecError Int)
    (aVals : List Int) (aV : Option (List Bool))
    (bVals : List Int) (bV : Option (List Bool)) :
    Except ExecError (List Int × Option (List Bool)) := do
  let vals ← binaryCells f aV bV 0 aVals bVals
  let outValidity : Option (List Bool) :=
    match aV, bV with
    | none, none => none
    | _, _ =>
        some ((List.range (min aVals.length bVals.length)).map fun i =>
          validBit aV i && validBit bV i)
  .ok (vals, outValidity)

/-- `AddImpl::execute` (`arith.rs`), `Int32` arm; any array pairing without
an arm panics (`other => panic!("unexpected array type")`). -/
def AddImpl.execute (a b : ArrayB) : Except ExecError ArrayB :=
  match a, b with
  | .int32 av avv, .int32 bv bvv =>
      (binaryExecuteInt i32Add av avv bv bvv).map fun r => .int32 r.1 r.2
  | _, _ => .error (.panicked "unexpected array type")

/-- `SubImpl::execute` (`arith.rs`), `Int32` arm. -/
def SubImpl.execute (a b : ArrayB) : Except ExecError ArrayB :=
  match a, b with
  | .int32 av avv, .int32 bv bvv =>
      (binaryExecuteInt i32Sub av avv bv bvv).map fun r => .int32 r.1 r.2
  | _, _ => .error (.panicked "unexpected array type")

/-- `MulImpl::execute` (`arith.rs`), `Int32` arm. -/
def MulImpl.execute (a b : ArrayB) : Except ExecError ArrayB :=
  match a, b with
  | .int32 av avv, .int32 bv bvv =>
      (binaryExecuteInt i32Mul av avv bv bvv).map fun r => .int32 r.1 r.2
  | _, _ => .error (.panicked "unexpected array type")

/-- `DivImpl::execute` (`arith.rs`), `Int32` arm: the per-cell closure is the
bare `a / b`. -/
def DivImpl.execute (a b : ArrayB) : Except ExecError ArrayB :=
  match a, b with
  | .int32 av avv, .int32 bv bvv =>
      (binaryExecuteInt i32Div av avv bv bvv).map fun r => .int32 r.1 r.2
  | _, _ => .error (.panicked "unexpected array type")

/-- `RemImpl::execute` (`arith.rs`), `Int32` arm. -/
def RemImpl.execute (a b : ArrayB) : Except ExecError ArrayB :=
  match a, b with
  | .int32 av avv, .int32 bv bvv =>
      (binaryExecuteInt i32Rem av avv bv bvv).map fun r => .int32 r.1 r.2
  | _, _ => .error (.panicked "unexpected array type")

/-- `DivImpl::execute` from `arith/div.rs` (the newer module), `Int32` arm:
the per-cell closure is again the bare `a / b`; an unhandled physical-type
pairing returns a typed error (`unhandled_physical_types_err`) instead of
panicking. -/
def DivRsImpl.execute (a b : ArrayB) : Except ExecError ArrayB :=
  match a, b with
  | .int32 av avv, .int32 bv bvv =>
      (binaryExecuteInt i32Div av avv bv bvv).map fun r => .int32 r.1 r.2
  | _, _ => .error (.err { message := "unhandled physical types" })

/-- Modelled from the spec: the `UnaryExecutor` driver (not under the
provided sources).  Spec section 4.8: for each logical row, a NULL cell
writes NULL to the builder (the slot keeps its default) and the function is
not called; a valid cell applies the function.  The output carries the
input's validity. -/
def unaryExecuteStrToI64 (f : String → Int)
    (vals : List String) (validity : Option (List Bool)) :
    List Int × Option (List Bool) :=
  ((List.range vals.length).map fun i =>
      if validBit validity i then f (vals.getD i "") else 0,
   validity)

/-- `StrLengthImpl::execute` (`length.rs`): `PhysicalUtf8` access, per-cell
`v.chars().count() as i64` (the number of Unicode scalar values), output
datatype `Int64`; non-Utf8 storage is a typed error from the executor's
storage access. -/
def StrLengthImpl.execute (input : ArrayB) : Except ExecError ArrayB :=
  match input with
  | .utf8 vals validity =>
      let r := unaryExecuteStrToI64 (fun s => (s.length : Int)) vals validity
      .ok (.int64 r.1 r.2)
  | _ => .error (.err { message := "invalid physical type" })

/-- `ByteLengthImpl::execute` (`length.rs`): `PhysicalBinary` access reads
the raw bytes, per-cell `v.len() as i64` (the UTF-8 byte count for a Utf8
array), output datatype `Int64`. -/
def ByteLengthImpl.execute (input : ArrayB) : Except ExecError ArrayB :=
  match input with
  | .utf8 vals validity =>
      let r := unaryExecuteStrToI64 (fun s => (s.utf8ByteSize : Int)) vals validity
      .ok (.int64 r.1 r.2)
  | _ => .error (.err { message := "invalid physical type" })

/-- `BitLengthImpl::execute` (`length.rs`): per-cell `(v.len() * 8) as i64`,
output datatype `Int64`. -/
def BitLengthImpl.execute (input : ArrayB) : Except ExecError ArrayB :=
  match input with
  | .utf8 vals validity =>
      let r := unaryExecuteStrToI64 (fun s => ((s.utf8ByteSize * 8 : Nat) : Int)) vals validity
      .ok (.int64 r.1 r.2)
  | _ => .error (.err { message := "invalid physical type" })

/-! ## L2 distance

`L2DistanceImpl::execute` drives `ListExecutor::<false, false>::binary_reduce`
with the `L2DistanceReducer`.  The element type is a float type
(`f16`/`f32`/`f64`); it is embedded as a type parameter `F` with ring
operations, and the final `.as_().sqrt()` (cast to `f64` then square root)
as an explicit function parameter `sqrtF`. -/

/-- `L2DistanceReducer` (source): the running sum of squared differences. -/
structure L2DistanceReducer (F : Type) where
  distance : F
  deriving Repr, DecidableEq

/-- `L2DistanceReducer::new(left_len, right_len)`: the `Default` value (the
`debug_assert_eq!` on the lengths is compiled out of release builds and does
not affect the value). -/
def L2DistanceReducer.new (F : Type) [Zero F] (_leftLen _rightLen : Nat) :
    L2DistanceReducer F :=
  ⟨0⟩

/-- `L2DistanceReducer::put_values(v1, v2)`:
`distance += (v1 - v2) * (v1 - v2)`. -/
def L2DistanceReducer.putValues [Add F] [Sub F] [Mul F]
    (r : L2DistanceReducer F) (v1 v2 : F) : L2DistanceReducer F :=
  ⟨r.distance + (v1 - v2) * (v1 - v2)⟩

/-- `L2DistanceReducer::finish`: `self.distance.as_().sqrt()`. -/
def L2DistanceReducer.finish (sqrtF : F → F) (r : L2DistanceReducer F) : F :=
  sqrtF r.distance

/-- One row of the reduction: feed the element pairs of the two lists to the
reducer in order and finish. -/
def l2ReduceRow [Zero F] [Add F] [Sub F] [Mul F] (sqrtF : F → F)
    (x y : List F) : F :=
  ((x.zip y).foldl (fun r p => r.putValues p.1 p.2)
      (L2DistanceReducer.new F x.length y.length)).finish sqrtF

/-- Modelled from the spec: `ListExecutor::<false, false>::binary_reduce`
(not under the provided sources).  Spec sections 4.8 and 4.12: per row it
locates the two child sub-ranges, and both lists must have equal length —
"a length mismatch is a runtime error"; on equal lengths the reducer is fed
the element pairs in order.  Rows are all valid (`<false, false>` admits no
NULLs). -/
def listBinaryReduce [Zero F] [Add F] [Sub F] [Mul F] (sqrtF : F → F) :
    List (List F) → List (List F) → Except ExecError (List F)
  | [], _ => .ok []
  | _ :: _, [] => .ok []
  | x :: xs, y :: ys =>
      if x.length = y.length then do
        let rest ← listBinaryReduce sqrtF xs ys
        .ok (l2ReduceRow sqrtF x y :: rest)
      else .error (.err { message := "lists must be the same length" })

/-- `L2DistanceImpl::execute` over list arrays with all rows valid, embedded
as the rows' element lists. -/
def L2DistanceImpl.execute [Zero F] [Add F] [Sub F] [Mul F] (sqrtF : F → F)
    (a b : List (List F)) : Except ExecError (List F) :=
  listBinaryReduce sqrtF a b

/-! ## Theorems -/

/-- C1: selections compose — applying `s₁` via `select_mut2` and then `s₂`
yields the same logical sequence (every `logical_value`) as applying the
single composed selection `s₃` with `s₃[i] = s₁[s₂[i]]`; concretely,
`from_iter(["a","b","c"])` followed by `select([0,2])` then `select([1,1,0])`
reads back `"c","c","a"` at logical indices `0,1,2`, and `logical_value(3)`
is an out-of-bounds error. -/
theorem selection_composition_c1 :
    (∀ (vals : List String) (s₁ s₂ : List Nat) (i : Nat),
        (((Array.fromIterStr vals).selectMut2 s₁).selectMut2 s₂).logicalValue i
          = ((Array.fromIterStr vals).selectMut2
              ((List.range s₂.length).map fun j => s₁.getD (s₂.getD j 0) 0)).logicalValue i)
    ∧ ((((Array.fromIterStr ["a", "b", "c"]).selectMut2 [0, 2]).selectMut2
          [1, 1, 0]).logicalValue 0 = .ok (.Utf8 "c")
        ∧ (((Array.fromIterStr ["a", "b", "c"]).selectMut2 [0, 2]).selectMut2
            [1, 1, 0]).logicalValue 1 = .ok (.Utf8 "c")
        ∧ (((Array.fromIterStr ["a", "b", "c"]).selectMut2 [0, 2]).selectMut2
            [1, 1, 0]).logicalValue 2 = .ok (.Utf8 "a")
        ∧ (((Array.fromIterStr ["a", "b", "c"]).selectMut2 [0, 2]).selectMut2
            [1, 1, 0]).logicalValue 3
            = .error (.err { message := "Logical index 3 out of bounds" })) := by
  constructor
  · intro vals s₁ s₂ i
    have hsel : SelectionVector.select s₁ s₂
        = (List.range s₂.length).map fun j => s₁.getD (s₂.getD j 0) 0 := by
      apply List.ext_getElem
      · simp [SelectionVector.select]
      · intro n h₁ h₂
        have hn : n < s₂.length := by
          simpa [SelectionVector.select] using h₁
        simp only [SelectionVector.select, List.getElem_map, List.getElem_range]
        rw [List.getD_eq_getElem s₂ 0 hn]
    simp [Array.selectMut2, Array.fromIterStr, hsel]
  · refine ⟨by decide, by decide, by decide, ?_⟩
    decide

/-- C2: building an array from an iterator of `Option<T>` and reading every
logical index back with `logical_value` yields the original sequence, with
`None` cells read back as `ScalarValue::Null` — shown for a primitive type
(`i32`) and for strings — and the builder indeed stores the validity bits
`is_some` per cell with `T::default()` in the `None` slots. -/
theorem from_iter_roundtrip_c2 :
    (∀ (vals : List (Option Int)) (i : Nat), i < vals.length →
        (Array.fromIterOptI32 vals).logicalValue i
          = .ok (match vals.getD i none with
                 | some v => ScalarValue.Int32 v
                 | none => ScalarValue.Null))
    ∧ (∀ (vals : List (Option String)) (i : Nat), i < vals.length →
        (Array.fromIterOptStr vals).logicalValue i
          = .ok (match vals.getD i none with
                 | some s => ScalarValue.Utf8 s
                 | none => ScalarValue.Null))
    ∧ (∀ (vals : List (Option Int)),
        (Array.fromIterOptI32 vals).validity2 = some (vals.map fun v => v.isSome)
          ∧ (Array.fromIterOptI32 vals).data2 = .int32 (vals.map fun v => v.getD 0)) := by
  refine ⟨?_, ?_, fun vals => ⟨rfl, rfl⟩⟩
  · intro vals i h
    have hvi : vals[i]? = some (vals.getD i none) := by
      rw [List.getElem?_eq_getElem h, List.getD_eq_getElem _ _ h]
    rcases hv : vals.getD i none with _ | v <;> rw [hv] at hvi
    · simp [Array.logicalValue, Array.fromIterOptI32, Array.fromIterOpt,
        Array.fromIterI32, hvi]
    · simp [Array.logicalValue, Array.physicalScalar, Array.fromIterOptI32,
        Array.fromIterOpt, Array.fromIterI32, hvi]
  · intro vals i h
    have hvi : vals[i]? = some (vals.getD i none) := by
      rw [List.getElem?_eq_getElem h, List.getD_eq_getElem _ _ h]
    rcases hv : vals.getD i none with _ | s <;> rw [hv] at hvi
    · simp [Array.logicalValue, Array.fromIterOptStr, Array.fromIterOpt,
        Array.fromIterStr, hvi]
    · simp [Array.logicalValue, Array.physicalScalar, Array.fromIterOptStr,
        Array.fromIterOpt, Array.fromIterStr, hvi]

/-- Witness for C2 at `[Some(1), None, Some(3)]` and `[Some("a"), None]`. -/
theorem from_iter_roundtrip_c2_witness :
    (Array.fromIterOptI32 [some 1, none, some 3]).logicalValue 1 = .ok .Null
      ∧ (Array.fromIterOptI32 [some 1, none, some 3]).logicalValue 2 = .ok (.Int32 3)
      ∧ (Array.fromIterOptStr [some "a", none]).logicalValue 0 = .ok (.Utf8 "a") := by
  refine ⟨?_, ?_, ?_⟩
  · simpa using from_iter_roundtrip_c2.1 [some 1, none, some 3] 1 (by decide)
  · simpa using from_iter_roundtrip_c2.1 [some 1, none, some 3] 2 (by decide)
  · simpa using from_iter_roundtrip_c2.2.1 [some "a", none] 0 (by decide)

/-- C7: `put_validity` on an array built with `try_new` succeeds and installs
the validity exactly when its length equals the primary capacity; on a length
mismatch it returns the "Invalid validity length" typed error carrying the
got/want lengths (the array, passed by value here, is returned unchanged only
in the success case — the Rust mutation leaves `self` untouched on the error
path because it returns before assigning). -/
theorem put_validity_c7 :
    ∀ (dt : DataType) (cap : Nat) (v : List Bool),
      ((Array.tryNew dt cap).putValidity v
          = .ok { Array.tryNew dt cap with
                    next := some ⟨v, .flat dt.physicalType cap⟩ }
        ↔ v.length = cap)
      ∧ (v.length ≠ cap →
          (Array.tryNew dt cap).putValidity v
            = .error (.err { message := "Invalid validity length"
                             fields := [("got", v.length), ("want", cap)] })) := by
  intro dt cap v
  by_cases h : v.length = cap
  · constructor
    · simp [Array.putValidity, Array.tryNew, ArrayDataM.primaryCapacity, h]
    · intro hne
      exact absurd h hne
  · constructor
    · simp [Array.putValidity, Array.tryNew, ArrayDataM.primaryCapacity, h]
    · intro _
      simp [Array.putValidity, Array.tryNew, ArrayDataM.primaryCapacity, h]

/-- Witness for C7 at capacity 2 with a matching and a mismatched validity. -/
theorem put_validity_c7_witness :
    (Array.tryNew .int32 2).putValidity [true, false]
        = .ok { Array.tryNew DataType.int32 2 with
                  next := some ⟨[true, false], .flat .int32 2⟩ }
      ∧ (Array.tryNew .int32 2).putValidity [true]
        = .error (.err { message := "Invalid validity length"
                         fields := [("got", 1), ("want", 2)] }) := by
  constructor
  · exact (put_validity_c7 .int32 2 [true, false]).1.mpr (by decide)
  · exact (put_validity_c7 .int32 2 [true]).2 (by decide)

/-- C4, amended: the third conjunct of the claim holds only for in-bounds
selections, because `Array::select` performs no bounds check on the incoming
selection (the source carries a `TODO: Probably verify selection all in
bounds`).  For every array with new-layout contents whose dictionary indices
(if any) are well formed, and every selection whose indices are in bounds of
the array's logical length, `select` returns `Ok`, the physical type becomes
`Dictionary`, the primary capacity equals the selection length, and every
stored dictionary index is in bounds of the source data's logical length. -/
theorem select_postcondition_c4 :
    ∀ (a : Array) (inner : ArrayNextInner) (sel : List Nat),
      a.next = some inner → inner.data.wf →
      (∀ i ∈ sel, i < inner.data.primaryCapacity) →
      ∃ a' inner',
        a.select sel = .ok a'
          ∧ a'.next = some inner'
          ∧ a'.isDictionary = true
          ∧ inner'.data.primaryCapacity = sel.length
          ∧ ∀ idx ∈ inner'.data.dictIndices, idx < inner.data.sourceLen := by
  intro a inner sel hnext hwf hbound
  cases hd : inner.data with
  | dict oldSel srcV src =>
      rw [hd] at hwf hbound
      have hb : ∀ i ∈ sel, i < oldSel.length := by
        intro i hi
        simpa [ArrayDataM.primaryCapacity] using hbound i hi
      refine ⟨{ a with next := some ⟨inner.validity,
          .dict (sel.map fun i => oldSel.getD i 0) srcV src⟩ },
        ⟨inner.validity, .dict (sel.map fun i => oldSel.getD i 0) srcV src⟩,
        ?_, rfl, ?_, ?_, ?_⟩
      · simp only [Array.select, hnext, hd]
        rw [dif_pos hb]
      · simp [Array.isDictionary, ArrayDataM.physType]
      · simp [ArrayDataM.primaryCapacity]
      · intro idx hidx
        simp only [ArrayDataM.dictIndices, List.mem_map] at hidx
        obtain ⟨i, hi, hidx⟩ := hidx
        have hlt := hb i hi
        have hmem : oldSel.getD i 0 ∈ oldSel := by
          rw [List.getD_eq_getElem _ _ hlt]
          exact List.getElem_mem hlt
        have := hwf.1 _ hmem
        simpa [ArrayDataM.sourceLen, ← hidx] using this
  | flat phys len =>
      rw [hd] at hbound
      refine ⟨{ a with next := some ⟨List.replicate sel.length true,
          .dict sel inner.validity (.flat phys len)⟩ },
        ⟨List.replicate sel.length true, .dict sel inner.validity (.flat phys len)⟩,
        ?_, rfl, ?_, ?_, ?_⟩
      · simp [Array.select, hnext, hd]
      · simp [Array.isDictionary, ArrayDataM.physType]
      · simp [ArrayDataM.primaryCapacity]
      · intro idx hidx
        simp only [ArrayDataM.dictIndices] at hidx
        simpa [ArrayDataM.sourceLen, ArrayDataM.primaryCapacity] using hbound idx hidx

/-- Witness for C4 on a fresh 3-capacity Int32 array selected with `[0, 2]`. -/
theorem select_postcondition_c4_witness :
    ∃ a' inner',
      (Array.tryNew .int32 3).select [0, 2] = .ok a'
        ∧ a'.next = some inner'
        ∧ a'.isDictionary = true
        ∧ inner'.data.primaryCapacity = 2
        ∧ ∀ idx ∈ inner'.data.dictIndices, idx < (ArrayDataM.flat .int32 3).sourceLen := by
  have h := select_postcondition_c4 (Array.tryNew .int32 3)
    ⟨List.replicate 3 true, .flat DataType.int32.physicalType 3⟩ [0, 2]
    rfl (by decide) (by decide)
  simpa [ArrayDataM.sourceLen] using h

/-- Counterexample to C4 as stated: selecting `[5]` on a fresh 3-capacity
array succeeds (no bounds check), storing dictionary index 5 even though the
source's logical length is 3. -/
theorem select_postcondition_c4_counterexample :
    ∃ inner',
      (Array.tryNew .int32 3).select [5]
          = .ok { Array.tryNew DataType.int32 3 with next := some inner' }
        ∧ inner'.data.dictIndices = [5]
        ∧ (ArrayDataM.flat PhysicalType.int32 3).sourceLen = 3
        ∧ ¬ ∀ idx ∈ inner'.data.dictIndices,
              idx < (ArrayDataM.flat PhysicalType.int32 3).sourceLen := by
  refine ⟨⟨[true], .dict [5] [true, true, true] (.flat .int32 3)⟩, ?_, rfl, rfl, ?_⟩
  · decide
  · decide

/-- C5 (code bug): the source's `physical_scalar` arm for
`DataType::Int128` matches `ArrayData2::Int64` storage (and `UInt128`
matches `UInt64`), so an `Int128` array over genuine `Int128` physical
storage — exactly what `FromIterator<i128>` builds — returns the
"array data not valid" internal error instead of `ScalarValue::Int128`, and
an `Int128` array over `Int64` storage returns a `ScalarValue::Int64`. -/
theorem physical_scalar_int128_c5 :
    (Array.fromIterI128 [5]).physicalScalar 0
        = .error (.err { message := "Array data not valid for data type: Int128" })
    ∧ (Array.fromIterU128 [5]).physicalScalar 0
        = .error (.err { message := "Array data not valid for data type: UInt128" })
    ∧ Array.physicalScalar
        { datatype := .int128, selection2 := none, validity2 := none
          data2 := .int64 [7], next := none } 0
        = .ok (.Int64 7) := by
  refine ⟨by decide, by decide, by decide⟩

/-- C6 (code bug): the division kernel of `arith/div.rs` evaluates the bare
Rust `a / b` per cell, so a zero divisor with both cells valid panics
instead of returning a typed error or a defined wrap. -/
theorem div_by_zero_panics_c6 :
    DivRsImpl.execute (.int32 [1] none) (.int32 [0] none)
      = .error (.panicked "attempt to divide by zero") := by
  decide

/-- `bind` on a success value reduces to the continuation. -/
theorem except_bind_ok (v : α) (f : α → Except ε β) :
    ((Except.ok v : Except ε α) >>= f) = f v := rfl

/-- `bind` on an error short-circuits. -/
theorem except_bind_error (e : ε) (f : α → Except ε β) :
    ((Except.error e : Except ε α) >>= f) = .error e := rfl

/-- `Except.map` on a success value. -/
theorem except_map_ok (f : α → β) (v : α) :
    Except.map f (Except.ok v : Except ε α) = .ok (f v) := rfl

/-- `Except.map` on an error. -/
theorem except_map_error (f : α → β) (e : ε) :
    Except.map f (Except.error e : Except ε α) = .error e := rfl

/-- When the per-cell function succeeds on every zipped cell pair and both
inputs are all-valid without a bitmap, `binaryCells` returns the zip of the
per-cell results. -/
theorem binaryCells_ok (f : Int → Int → Except ExecError Int) (g : Int → Int → Int) :
    ∀ (av bv : List Int) (i : Nat),
      (∀ p ∈ av.zip bv, f p.1 p.2 = .ok (g p.1 p.2)) →
      binaryCells f none none i av bv = .ok (List.zipWith g av bv) := by
  intro av
  induction av with
  | nil => intro bv i _; rfl
  | cons x xs ih =>
      intro bv i h
      cases bv with
      | nil => rfl
      | cons y ys =>
          have hf := h (x, y) (by simp)
          have hrest := ih ys (i + 1) (fun p hp => h p (by simp [hp]))
          simp [binaryCells, validBit, hf, hrest, except_bind_ok]

/-- When some zipped cell pair makes the per-cell function panic,
`binaryCells` on all-valid inputs propagates an error. -/
theorem binaryCells_err (f : Int → Int → Except ExecError Int) :
    ∀ (av bv : List Int) (i : Nat),
      (∃ p ∈ av.zip bv, ∃ e, f p.1 p.2 = .error e) →
      ∃ e, binaryCells f none none i av bv = .error e := by
  intro av
  induction av with
  | nil => intro bv i h; simp at h
  | cons x xs ih =>
      intro bv i h
      cases bv with
      | nil => simp at h
      | cons y ys =>
          rcases h with ⟨p, hp, e, he⟩
          rw [List.zip_cons_cons, List.mem_cons] at hp
          rcases hp with rfl | hp
          · exact ⟨e, by simp [binaryCells, validBit, he, except_bind_error]⟩
          · cases hfxy : f x y with
            | error e' => exact ⟨e', by simp [binaryCells, validBit, hfxy, except_bind_error]⟩
            | ok v =>
                obtain ⟨e', he'⟩ := ih ys (i + 1) ⟨p, hp, e, he⟩
                exact ⟨e', by simp [binaryCells, validBit, hfxy, he', except_bind_ok, except_bind_error]⟩

/-- `wrap32` is the identity on representable values. -/
theorem wrap32_eq_self {z : Int} (h₁ : -(2 ^ 31) ≤ z) (h₂ : z < 2 ^ 31) :
    wrap32 z = z := by
  unfold wrap32
  have : (z + 2 ^ 31) % 2 ^ 32 = z + 2 ^ 31 :=
    Int.emod_eq_of_lt (by omega) (by omega)
  omega

/-- C3, amended: on all-valid equal-shape Int32 arrays the `+`, `-`, `*`
kernels return a same-shape Int32 array with `out[i] = a[i] op b[i]`
whenever that value is representable in `i32` (otherwise the cell wraps or,
in a debug build, panics); the `/` and `%` kernels do so whenever
`b[i] ≠ 0` and `(a[i], b[i]) ≠ (i32::MIN, −1)` — at such cells they panic
instead of returning an array.  The five literal end-to-end vectors of the
spec all hold. -/
theorem arith_kernels_c3 :
    (∀ (av bv : List Int),
        (∀ p ∈ av.zip bv, -(2 ^ 31) ≤ p.1 + p.2 ∧ p.1 + p.2 < 2 ^ 31) →
        AddImpl.execute (.int32 av none) (.int32 bv none)
          = .ok (.int32 (List.zipWith (fun x y => x + y) av bv) none))
    ∧ (∀ (av bv : List Int),
        (∀ p ∈ av.zip bv, -(2 ^ 31) ≤ p.1 - p.2 ∧ p.1 - p.2 < 2 ^ 31) →
        SubImpl.execute (.int32 av none) (.int32 bv none)
          = .ok (.int32 (List.zipWith (fun x y => x - y) av bv) none))
    ∧ (∀ (av bv : List Int),
        (∀ p ∈ av.zip bv, -(2 ^ 31) ≤ p.1 * p.2 ∧ p.1 * p.2 < 2 ^ 31) →
        MulImpl.execute (.int32 av none) (.int32 bv none)
          = .ok (.int32 (List.zipWith (fun x y => x * y) av bv) none))
    ∧ (∀ (av bv : List Int),
        (∀ p ∈ av.zip bv, p.2 ≠ 0 ∧ ¬(p.1 = -(2 ^ 31) ∧ p.2 = -1)) →
        DivImpl.execute (.int32 av none) (.int32 bv none)
          = .ok (.int32 (List.zipWith Int.tdiv av bv) none))
    ∧ (∀ (av bv : List Int),
        (∀ p ∈ av.zip bv, p.2 ≠ 0 ∧ ¬(p.1 = -(2 ^ 31) ∧ p.2 = -1)) →
        RemImpl.execute (.int32 av none) (.int32 bv none)
          = .ok (.int32 (List.zipWith Int.tmod av bv) none))
    ∧ (∀ (av bv : List Int),
        (∃ p ∈ av.zip bv, p.2 = 0) →
        ∃ e, DivImpl.execute (.int32 av none) (.int32 bv none) = .error e)
    ∧ AddImpl.execute (.int32 [1, 2, 3] none) (.int32 [4, 5, 6] none)
        = .ok (.int32 [5, 7, 9] none)
    ∧ SubImpl.execute (.int32 [4, 5, 6] none) (.int32 [1, 2, 3] none)
        = .ok (.int32 [3, 3, 3] none)
    ∧ DivImpl.execute (.int32 [4, 5, 6] none) (.int32 [1, 2, 3] none)
        = .ok (.int32 [4, 2, 2] none)
    ∧ RemImpl.execute (.int32 [4, 5, 6] none) (.int32 [1, 2, 3] none)
        = .ok (.int32 [0, 1, 0] none)
    ∧ MulImpl.execute (.int32 [4, 5, 6] none) (.int32 [1, 2, 3] none)
        = .ok (.int32 [4, 10, 18] none) := by
  refine ⟨?_, ?_, ?_, ?_, ?_, ?_, by decide, by decide, by decide, by decide, by decide⟩
  · intro av bv h
    have hc := binaryCells_ok i32Add (fun x y => x + y) av bv 0 fun p hp => by
      have := h p hp
      simp [i32Add, wrap32_eq_self this.1 this.2]
    simp [AddImpl.execute, binaryExecuteInt, hc, except_bind_ok, except_map_ok]
  · intro av bv h
    have hc := binaryCells_ok i32Sub (fun x y => x - y) av bv 0 fun p hp => by
      have := h p hp
      simp [i32Sub, wrap32_eq_self this.1 this.2]
    simp [SubImpl.execute, binaryExecuteInt, hc, except_bind_ok, except_map_ok]
  · intro av bv h
    have hc := binaryCells_ok i32Mul (fun x y => x * y) av bv 0 fun p hp => by
      have := h p hp
      simp [i32Mul, wrap32_eq_self this.1 this.2]
    simp [MulImpl.execute, binaryExecuteInt, hc, except_bind_ok, except_map_ok]
  · intro av bv h
    have hc := binaryCells_ok i32Div Int.tdiv av bv 0 fun p hp => by
      obtain ⟨h1, h2⟩ := h p hp
      simp only [i32Div]
      rw [if_neg h1, if_neg h2]
    simp [DivImpl.execute, binaryExecuteInt, hc, except_bind_ok, except_map_ok]
  · intro av bv h
    have hc := binaryCells_ok i32Rem Int.tmod av bv 0 fun p hp => by
      obtain ⟨h1, h2⟩ := h p hp
      simp only [i32Rem]
      rw [if_neg h1, if_neg h2]
    simp [RemImpl.execute, binaryExecuteInt, hc, except_bind_ok, except_map_ok]
  · intro av bv h
    rcases h with ⟨p, hp, hz⟩
    obtain ⟨e, he⟩ := binaryCells_err i32Div av bv 0
      ⟨p, hp, .panicked "attempt to divide by zero", by simp [i32Div, hz]⟩
    exact ⟨e, by simp [DivImpl.execute, binaryExecuteInt, he, except_bind_error, except_map_error]⟩

/-- Witness for C3 applying the general parts at the spec's vectors and at a
zero divisor. -/
theorem arith_kernels_c3_witness :
    AddImpl.execute (.int32 [10, 20] none) (.int32 [30, 40] none)
        = .ok (.int32 [40, 60] none)
      ∧ DivImpl.execute (.int32 [9] none) (.int32 [2] none)
        = .ok (.int32 [4] none)
      ∧ (∃ e, DivImpl.execute (.int32 [1] none) (.int32 [0] none) = .error e) := by
  refine ⟨?_, ?_, ?_⟩
  · simpa using arith_kernels_c3.1 [10, 20] [30, 40] (by decide)
  · simpa using arith_kernels_c3.2.2.2.1 [9] [2] (by decide)
  · exact arith_kernels_c3.2.2.2.2.2.1 [1] [0] ⟨(1, 0), by decide, rfl⟩

/-- Counterexample to C3 as stated: on the all-valid arrays `[1]` and `[0]`
the division kernel does not return an Int32 array at all — the bare Rust
`a / b` panics on the zero divisor. -/
theorem arith_kernels_c3_counterexample :
    DivImpl.execute (.int32 [1] none) (.int32 [0] none)
      = .error (.panicked "attempt to divide by zero") := by
  decide

/-- C10: for every array built with `try_new` (whose new-layout contents
`next` are present), `clone` discards `next` entirely, yet `PartialEq` still
reports the clone equal to the original because it compares only the legacy
fields. -/
theorem clone_drops_next_c10 :
    ∀ (dt : DataType) (cap : Nat),
      ((Array.tryNew dt cap).clone).next = none
        ∧ ((Array.tryNew dt cap).next).isSome = true
        ∧ Array.partialEq ((Array.tryNew dt cap).clone) (Array.tryNew dt cap) = true := by
  intro dt cap
  refine ⟨rfl, rfl, ?_⟩
  simp [Array.partialEq, Array.clone, Array.tryNew]

/-- The unary driver's output slot at a valid in-bounds cell is the
per-cell function applied to that cell's value. -/
theorem unary_out_getD (f : String → Int) (vals : List String)
    (validity : Option (List Bool)) (i : Nat) (hi : i < vals.length)
    (hv : validBit validity i = true) :
    (unaryExecuteStrToI64 f vals validity).1.getD i 0 = f (vals.getD i "") := by
  unfold unaryExecuteStrToI64
  have hlen : i < ((List.range vals.length).map fun j =>
      if validBit validity j then f (vals.getD j "") else 0).length := by
    simpa using hi
  rw [List.getD_eq_getElem _ _ hlen, List.getElem_map, List.getElem_range]
  simp [hv]

/-- C9: on a Utf8 array, every valid cell holding `s` produces
`length = ` the number of Unicode scalar values of `s`,
`byte_length = ` the number of UTF-8 bytes of `s`, and
`bit_length = 8 * byte_length`, all Int64; the output validity is the
input validity, so NULL cells stay NULL.  Concretely
`length("😀ab") = 3`, `byte_length("😀ab") = 6`, `bit_length("😀ab") = 48`. -/
theorem length_kernels_c9 :
    (∀ (vals : List String) (validity : Option (List Bool)) (i : Nat),
        i < vals.length → validBit validity i = true →
        ∃ lenVals byteVals bitVals,
          StrLengthImpl.execute (.utf8 vals validity) = .ok (.int64 lenVals validity)
            ∧ ByteLengthImpl.execute (.utf8 vals validity) = .ok (.int64 byteVals validity)
            ∧ BitLengthImpl.execute (.utf8 vals validity) = .ok (.int64 bitVals validity)
            ∧ lenVals.getD i 0 = ((vals.getD i "").length : Int)
            ∧ byteVals.getD i 0 = ((vals.getD i "").utf8ByteSize : Int)
            ∧ bitVals.getD i 0 = 8 * byteVals.getD i 0)
    ∧ StrLengthImpl.execute (.utf8 ["😀ab"] none) = .ok (.int64 [3] none)
    ∧ ByteLengthImpl.execute (.utf8 ["😀ab"] none) = .ok (.int64 [6] none)
    ∧ BitLengthImpl.execute (.utf8 ["😀ab"] none) = .ok (.int64 [48] none) := by
  refine ⟨?_, by decide, by decide, by decide⟩
  intro vals validity i hi hv
  refine ⟨_, _, _, rfl, rfl, rfl, ?_, ?_, ?_⟩
  · exact unary_out_getD (fun s => (s.length : Int)) vals validity i hi hv
  · exact unary_out_getD (fun s => (s.utf8ByteSize : Int)) vals validity i hi hv
  · rw [unary_out_getD (fun s => ((s.utf8ByteSize * 8 : Nat) : Int)) vals validity i hi hv,
      unary_out_getD (fun s => (s.utf8ByteSize : Int)) vals validity i hi hv]
    push_cast
    ring

/-- Witness for C9 at `["😀ab"]` with an explicit all-valid bitmap. -/
theorem length_kernels_c9_witness :
    ∃ lenVals byteVals bitVals,
      StrLengthImpl.execute (.utf8 ["😀ab"] (some [true]))
          = .ok (.int64 lenVals (some [true]))
        ∧ ByteLengthImpl.execute (.utf8 ["😀ab"] (some [true]))
          = .ok (.int64 byteVals (some [true]))
        ∧ BitLengthImpl.execute (.utf8 ["😀ab"] (some [true]))
          = .ok (.int64 bitVals (some [true]))
        ∧ lenVals.getD 0 0 = (("😀ab".length : Nat) : Int)
        ∧ byteVals.getD 0 0 = (("😀ab".utf8ByteSize : Nat) : Int)
        ∧ bitVals.getD 0 0 = 8 * byteVals.getD 0 0 := by
  have h := length_kernels_c9.1 ["😀ab"] (some [true]) 0 (by decide) (by decide)
  simpa using h

/-- Folding `put_values` over element pairs accumulates the sum of squared
differences into `distance`. -/
theorem l2Reducer_fold_distance {F : Type} [Zero F] [Add F] [Sub F] [Mul F] :
    ∀ (l : List (F × F)) (d : F),
      ((l.foldl (fun r p => r.putValues p.1 p.2) (⟨d⟩ : L2DistanceReducer F)).distance)
        = l.foldl (fun s p => s + (p.1 - p.2) * (p.1 - p.2)) d := by
  intro l
  induction l with
  | nil => intro d; rfl
  | cons p ps ih =>
      intro d
      rw [List.foldl_cons, List.foldl_cons]
      exact ih (d + (p.1 - p.2) * (p.1 - p.2))

/-- A reduced row is the abstracted square root of the sum of squared
differences of the zipped elements. -/
theorem l2ReduceRow_eq {F : Type} [Zero F] [Add F] [Sub F] [Mul F]
    (sqrtF : F → F) (x y : List F) :
    l2ReduceRow sqrtF x y
      = sqrtF ((x.zip y).foldl (fun s q => s + (q.1 - q.2) * (q.1 - q.2)) 0) := by
  unfold l2ReduceRow L2DistanceReducer.new L2DistanceReducer.finish
  rw [l2Reducer_fold_distance]

/-- Rows with equal lengths everywhere reduce to the row values. -/
theorem listBinaryReduce_ok {F : Type} [Zero F] [Add F] [Sub F] [Mul F]
    (sqrtF : F → F) :
    ∀ (a b : List (List F)),
      (∀ p ∈ a.zip b, p.1.length = p.2.length) →
      listBinaryReduce sqrtF a b
        = .ok ((a.zip b).map fun p =>
            sqrtF ((p.1.zip p.2).foldl (fun s q => s + (q.1 - q.2) * (q.1 - q.2)) 0)) := by
  intro a
  induction a with
  | nil => intro b _; cases b <;> rfl
  | cons x xs ih =>
      intro b h
      cases b with
      | nil => rfl
      | cons y ys =>
          have hxy := h (x, y) (by simp)
          have hrest := ih ys (fun p hp => h p (by simp [hp]))
          simp [listBinaryReduce, hxy, hrest, l2ReduceRow_eq, except_bind_ok]

/-- A row with mismatched lengths makes the reduction error. -/
theorem listBinaryReduce_err {F : Type} [Zero F] [Add F] [Sub F] [Mul F]
    (sqrtF : F → F) :
    ∀ (a b : List (List F)),
      (∃ p ∈ a.zip b, p.1.length ≠ p.2.length) →
      ∃ e, listBinaryReduce sqrtF a b = .error e := by
  intro a
  induction a with
  | nil => intro b h; simp at h
  | cons x xs ih =>
      intro b h
      cases b with
      | nil => simp at h
      | cons y ys =>
          rcases h with ⟨p, hp, hne⟩
          rw [List.zip_cons_cons, List.mem_cons] at hp
          rcases hp with rfl | hp
          · exact ⟨.err { message := "lists must be the same length" },
              by simp [listBinaryReduce, hne]⟩
          · by_cases hxy : x.length = y.length
            · obtain ⟨e, he⟩ := ih ys ⟨p, hp, hne⟩
              exact ⟨e, by simp [listBinaryReduce, hxy, he, except_bind_error]⟩
            · exact ⟨.err { message := "lists must be the same length" },
                by simp [listBinaryReduce, hxy]⟩

/-- C8: for each pair of rows fed to the `l2_distance` kernel, equal list
lengths everywhere produce the Euclidean distances (the abstracted square
root of the sum of squared element differences, row by row), while any row
with mismatched list lengths makes the kernel return a runtime error. -/
theorem l2_distance_c8 {F : Type} [Zero F] [Add F] [Sub F] [Mul F] (sqrtF : F → F) :
    (∀ (a b : List (List F)),
        (∀ p ∈ a.zip b, p.1.length = p.2.length) →
        L2DistanceImpl.execute sqrtF a b
          = .ok ((a.zip b).map fun p =>
              sqrtF ((p.1.zip p.2).foldl (fun s q => s + (q.1 - q.2) * (q.1 - q.2)) 0)))
    ∧ (∀ (a b : List (List F)),
        (∃ p ∈ a.zip b, p.1.length ≠ p.2.length) →
        ∃ e, L2DistanceImpl.execute sqrtF a b = .error e) := by
  constructor
  · intro a b h
    exact listBinaryReduce_ok sqrtF a b h
  · intro a b h
    exact listBinaryReduce_err sqrtF a b h

/-- Witness for C8 on the spec's example rows `[1,1]` and `[2,4]` (squared
sum 10) and on a mismatched pair, with the element type instantiated at
`Int` and the square root abstracted as the identity. -/
theorem l2_distance_c8_witness :
    L2DistanceImpl.execute (fun q : Int => q) [[1, 1]] [[2, 4]] = .ok [10]
      ∧ ∃ e, L2DistanceImpl.execute (fun q : Int => q) [[1]] [[2, 4]] = .error e := by
  constructor
  · have h := (l2_distance_c8 (F := Int) (fun q => q)).1 [[1, 1]] [[2, 4]] (by decide)
    rw [h]
    decide
  · exact (l2_distance_c8 (F := Int) (fun q => q)).2 [[1]] [[2, 4]]
      ⟨([1], [2, 4]), by decide, by decide⟩

end Glaredb
